import Mathlib

/-!
# Verification of the PSVHUD marker component

Shallow embedding of `src/src/js/components/PSVHUD.js` (the HUD / marker
projector of a 360° panorama viewer).  The file holds two revisions of the
component; as plain JavaScript the later prototype assignments override the
earlier ones, so the second revision (the one with the FOV-bounds polygon
clipping code) defines the effective behaviour and is what we embed.

The registry operations are modelled over an explicit heap (markers are
mutable JS objects; identity is a heap reference).  The geometry is modelled
generically over a linear ordered field where only field operations and
comparisons occur, and over the reals where trigonometry occurs.
External collaborators (the viewer projection functions, the PSVMarker
constructor, the tooltip surface) are either abstract parameters or are
modelled from the specification, as marked.
-/

namespace PSVHUD

/-! ## JavaScript values for the `visible` flag

`toggleMarker` executes `this.getMarker(marker).visible ^= true`, which
coerces the flag through ToInt32 and xors it with `ToInt32(true) = 1`.
Markers otherwise receive booleans (`hideMarker` / `showMarker` assign
`false` / `true`).  We model the possible field values as booleans or
integers. -/

inductive JSVisible where
  | bool : Bool → JSVisible
  | num : Int → JSVisible
deriving DecidableEq

/-- JavaScript truthiness of a `visible` value: booleans are themselves,
a number is truthy iff nonzero. -/
def JSVisible.truthy : JSVisible → Bool
  | .bool b => b
  | .num n => decide (n ≠ 0)

/-- JavaScript ToNumber on the modelled values (booleans map to 0 / 1). -/
def JSVisible.toNumber : JSVisible → Int
  | .bool b => if b then 1 else 0
  | .num n => n

/-- JavaScript ToInt32: reduce an integer into the range `[-2^31, 2^31)`. -/
def toInt32 (n : Int) : Int :=
  (n + 2 ^ 31) % 2 ^ 32 - 2 ^ 31

/-- Xor with 1 on a two's-complement 32-bit integer flips the lowest bit:
an even value gains 1, an odd value loses 1. -/
def xorOne (n : Int) : Int :=
  if n % 2 = 0 then n + 1 else n - 1

/-- Effect of `visible ^= true` on the stored value: ToInt32 both operands
(`ToInt32(true) = 1`), xor, store the resulting number. -/
def toggleVisible (v : JSVisible) : JSVisible :=
  .num (xorOne (toInt32 v.toNumber))

/-! ## Marker registry with an explicit heap

`this.markers` maps an id string to a marker object; object identity is a
heap reference (`Nat`).  Only the fields the registry operations read are
modelled: `id`, `visible` and `isNormal` (point markers attach to the
container, polygon markers to the svg surface). -/

/-- Properties object passed to `addMarker`; `id` is absent or a string
(the JS falsy check `!properties.id` also rejects the empty string). -/
structure MarkerProps where
  id : Option String
  visible : JSVisible
  isNormal : Bool
deriving DecidableEq

/-- A marker object on the heap. -/
structure MarkerObj where
  id : String
  visible : JSVisible
  isNormal : Bool
deriving DecidableEq

/-- Modelled from the spec: the `PSVMarker` constructor (its file is not part
of the given sources).  It builds a marker whose immutable `id` comes from the
properties, together with the visibility flag and the point/polygon kind. -/
def mkMarker (props : MarkerProps) : MarkerObj :=
  { id := props.id.getD "", visible := props.visible, isNormal := props.isNormal }

/-- Errors of the component.  The source throws `PSVError` with a message
string; the spec names the three variants MissingIdError, DuplicateIdError
and NotFoundError, matching the three throw sites. -/
inductive PSVErr where
  | missingId : PSVErr
  | duplicateId : String → PSVErr
  | notFound : String → PSVErr
deriving DecidableEq

/-- Association-list lookup (first binding wins, as reads after updates do in
JS object semantics with our cons-on-update encoding). -/
def findVal {κ β : Type} [DecidableEq κ] : List (κ × β) → κ → Option β
  | [], _ => none
  | p :: l, k => if p.1 = k then some p.2 else findVal l k

/-- State of the HUD component: the allocation counter, the heap of marker
objects, the id registry (ids to references), the two attachment surfaces,
the hover / selection slots and the tooltip open flag (the tooltip itself is
an external collaborator; `hideTooltip` closes it). -/
structure HudState where
  nextRef : Nat
  heap : List (Nat × MarkerObj)
  markers : List (String × Nat)
  containerChildren : List Nat
  svgChildren : List Nat
  hoveringMarker : Option Nat
  currentMarker : Option Nat
  tooltipVisible : Bool
deriving DecidableEq

/-- Registry lookup `this.markers[id]`, yielding the reference. -/
def HudState.lookupMarker (s : HudState) (id : String) : Option Nat :=
  findVal s.markers id

/-- Heap read: dereference a marker object. -/
def HudState.heapGet (s : HudState) (r : Nat) : Option MarkerObj :=
  findVal s.heap r

/-- Heap write at an existing reference (cons shadows the old binding). -/
def HudState.heapSet (s : HudState) (r : Nat) (m : MarkerObj) : HudState :=
  { s with heap := (r, m) :: s.heap }

/-- Embeds `getMarker`: resolve an id (a caller passing a marker object is
resolved to `marker.id` first, per the source) and throw `NotFoundError` when
the registry has no truthy entry.  Returns the registered object reference. -/
def getMarkerRes (s : HudState) (target : String) : Except PSVErr Nat :=
  match s.lookupMarker target with
  | none => .error (.notFound target)
  | some r => .ok r

/-- Embeds `addMarker` (second revision, which ends in `return marker`):
throw on a missing or falsy id, throw on a duplicate id, otherwise construct
the marker, attach its element to the container (point) or the svg surface
(polygon), register it and return it.  The trailing `updatePositions` call
(when `render` is not `false`) only rewrites cached projections and visual
classes, none of the registry fields modelled here. -/
def addMarkerOp (s : HudState) (props : MarkerProps) (_render : Bool) :
    Except PSVErr Nat × HudState :=
  if props.id = none ∨ props.id = some "" then
    (.error .missingId, s)
  else
    let i := props.id.getD ""
    if (s.lookupMarker i).isSome then
      (.error (.duplicateId i), s)
    else
      let r := s.nextRef
      let m := mkMarker props
      let s1 : HudState := { s with nextRef := r + 1, heap := (r, m) :: s.heap }
      let s2 : HudState :=
        if m.isNormal then { s1 with containerChildren := r :: s1.containerChildren }
        else { s1 with svgChildren := r :: s1.svgChildren }
      let s3 : HudState := { s2 with markers := (m.id, r) :: s2.markers }
      (.ok r, s3)

/-- Embeds `removeMarker`: resolve the marker, detach its element from its
surface, hide the tooltip when the removed marker is the hovering marker
(the source does not clear `this.hoveringMarker`), and delete the registry
entry keyed by `marker.id`. -/
def removeMarkerOp (s : HudState) (target : String) (_render : Bool) :
    Except PSVErr Unit × HudState :=
  match getMarkerRes s target with
  | .error e => (.error e, s)
  | .ok r =>
    match s.heapGet r with
    | none => (.error (.notFound target), s)
    | some m =>
      let s1 : HudState :=
        if m.isNormal then { s with containerChildren := s.containerChildren.filter (· ≠ r) }
        else { s with svgChildren := s.svgChildren.filter (· ≠ r) }
      let s2 : HudState :=
        if s1.hoveringMarker = some r then { s1 with tooltipVisible := false } else s1
      let s3 : HudState := { s2 with markers := s2.markers.filter (fun p => p.1 ≠ m.id) }
      (.ok (), s3)

/-- Modelled from the spec: `PSVMarker.update` (file not in the sources)
merges new properties into the marker state; the id is immutable.  The
`visible` flag stands for the merged content here. -/
def mergeMarker (m : MarkerObj) (newVisible : Option JSVisible) : MarkerObj :=
  { m with visible := newVisible.getD m.visible }

/-- Embeds `updateMarker`: resolve, merge, return the marker. -/
def updateMarkerOp (s : HudState) (target : String) (newVisible : Option JSVisible)
    (_render : Bool) : Except PSVErr Nat × HudState :=
  match getMarkerRes s target with
  | .error e => (.error e, s)
  | .ok r =>
    match s.heapGet r with
    | none => (.error (.notFound target), s)
    | some m => (.ok r, s.heapSet r (mergeMarker m newVisible))

/-- Embeds `hideMarker`: `this.getMarker(marker).visible = false`. -/
def hideMarkerOp (s : HudState) (target : String) : Except PSVErr Unit × HudState :=
  match getMarkerRes s target with
  | .error e => (.error e, s)
  | .ok r =>
    match s.heapGet r with
    | none => (.error (.notFound target), s)
    | some m => (.ok (), s.heapSet r { m with visible := .bool false })

/-- Embeds `showMarker`: `this.getMarker(marker).visible = true`. -/
def showMarkerOp (s : HudState) (target : String) : Except PSVErr Unit × HudState :=
  match getMarkerRes s target with
  | .error e => (.error e, s)
  | .ok r =>
    match s.heapGet r with
    | none => (.error (.notFound target), s)
    | some m => (.ok (), s.heapSet r { m with visible := .bool true })

/-- Embeds `toggleMarker`: `this.getMarker(marker).visible ^= true`. -/
def toggleMarkerOp (s : HudState) (target : String) : Except PSVErr Unit × HudState :=
  match getMarkerRes s target with
  | .error e => (.error e, s)
  | .ok r =>
    match s.heapGet r with
    | none => (.error (.notFound target), s)
    | some m => (.ok (), s.heapSet r { m with visible := toggleVisible m.visible })

/-- Embeds `gotoMarker`: resolve the marker (throwing when absent) and hand
it to the external camera animation; no component state changes. -/
def gotoMarkerOp (s : HudState) (target : String) : Except PSVErr Unit × HudState :=
  match getMarkerRes s target with
  | .error e => (.error e, s)
  | .ok _ => (.ok (), s)

/-- Embeds `clearMarkers`: remove every key of the registry, suppressing the
intermediate render passes. -/
def clearMarkersOp (s : HudState) (_render : Bool) : HudState :=
  (s.markers.map Prod.fst).foldl (fun st id => (removeMarkerOp st id false).2) s

/-- The public registry operations, for reasoning about operation sequences. -/
inductive HudOp where
  | addOp : MarkerProps → Bool → HudOp
  | updateOp : String → Option JSVisible → Bool → HudOp
  | removeOp : String → Bool → HudOp
  | clearOp : Bool → HudOp
  | gotoOp : String → HudOp
  | hideOp : String → HudOp
  | showOp : String → HudOp
  | toggleOp : String → HudOp
deriving DecidableEq

/-- State effect of one operation (thrown errors leave the state at the
throw point, which for every operation is the state it was called in). -/
def applyOp (s : HudState) : HudOp → HudState
  | .addOp p rn => (addMarkerOp s p rn).2
  | .updateOp t v rn => (updateMarkerOp s t v rn).2
  | .removeOp t rn => (removeMarkerOp s t rn).2
  | .clearOp rn => clearMarkersOp s rn
  | .gotoOp t => (gotoMarkerOp s t).2
  | .hideOp t => (hideMarkerOp s t).2
  | .showOp t => (showMarkerOp s t).2
  | .toggleOp t => (toggleMarkerOp s t).2

/-- Apply a sequence of operations. -/
def applyOps (s : HudState) (l : List HudOp) : HudState :=
  l.foldl applyOp s

/-- Whether an operation removes the marker registered under `id`
(an explicit removal of that id, or a bulk clear). -/
def HudOp.removesId (op : HudOp) (id : String) : Bool :=
  match op with
  | .removeOp t _ => t = id
  | .clearOp _ => true
  | _ => false

/-- Well-formedness of a state: every registered reference is below the
allocation counter and dereferences to a live object carrying the
registered id.  This holds for all states the component itself builds. -/
def HudState.wf (s : HudState) : Bool :=
  s.markers.all fun p =>
    decide (p.2 < s.nextRef) &&
      match s.heapGet p.2 with
      | some m => decide (m.id = p.1)
      | none => false

/-- A concrete state holding one point marker with id `m` at reference 0,
used to instantiate the registry theorems. -/
def sampleState : HudState :=
  ⟨1, [(0, ⟨"m", .bool true, true⟩)], [("m", 0)], [0], [], none, none, false⟩

/-- The same concrete state, with the marker hovered and the tooltip open. -/
def sampleHoverState : HudState :=
  ⟨1, [(0, ⟨"m", .bool true, true⟩)], [("m", 0)], [0], [], some 0, none, true⟩

/-- A concrete empty state. -/
def emptyState : HudState :=
  ⟨0, [], [], [], [], none, none, false⟩


/-! ## Geometry: frustum bounds, point visibility and polygon clipping

The per-frame geometry of `updatePositions` uses only field arithmetic and
comparisons (apart from the great-circle intersection, treated separately
over the reals below), so it is embedded generically over a linear ordered
field; at `ℚ` everything is executable.  The external viewer conversions
`vector3ToViewerCoords` (3D direction to screen pixels) are abstract
function parameters. -/

/-- A 3D vector. -/
structure Vec3 (α : Type) where
  x : α
  y : α
  z : α
deriving DecidableEq

/-- Dot product, as in `THREE.Vector3.dot`. -/
def dot {α : Type} [LinearOrderedCommRing α] (u v : Vec3 α) : α :=
  u.x * v.x + u.y * v.y + u.z * v.z

/-- A screen position `{top, left}`. -/
structure ScreenPos (α : Type) where
  top : α
  left : α
deriving DecidableEq

/-- The per-frame FOV bounds stored in `this.prop.fovBounds`.  The
`latitudeCrossOrigin` flag is computed (from the latitudes) but never read
by the vertex test, which compares the longitudes directly. -/
structure FovBounds (α : Type) where
  longitude1 : α
  longitude2 : α
  latitude1 : α
  latitude2 : α
  latitudeCrossOrigin : Bool
deriving DecidableEq

/-- Embeds the per-vertex spherical inclusion test of `_getPolygonPositions`:
`visible = pos[0] > latitude1 && pos[0] < latitude2`, then, when still
visible, the longitude test — a disjunction when the rendered window crosses
the origin (`longitude1 > longitude2`), otherwise a conjunction. -/
def vertexVisible {α : Type} [LinearOrderedCommRing α] (b : FovBounds α) (pos : α × α) : Bool :=
  let visible := decide (pos.1 > b.latitude1) && decide (pos.1 < b.latitude2)
  if visible then
    if b.longitude1 > b.longitude2 then
      visible && (decide (pos.2 > b.longitude1) || decide (pos.2 < b.longitude2))
    else
      visible && (decide (pos.2 > b.longitude1) && decide (pos.2 < b.longitude2))
  else
    visible

/-- One entry of the intermediate `positions` array of
`_getPolygonPositions`: the spherical coordinates, the 3D vector and the
visibility flag. -/
structure PolyVertex (α : Type) where
  spherical : α × α
  vector : Vec3 α
  visible : Bool
deriving DecidableEq

/-- The initial `positions` array: `polygon_rad` and `positions3D` are
parallel lists (an invariant of the marker data model), mapped with the
inclusion test. -/
def mkPolyVertices {α : Type} [LinearOrderedCommRing α] (b : FovBounds α)
    (polygon_rad : List (α × α)) (positions3D : List (Vec3 α)) : List (PolyVertex α) :=
  (polygon_rad.zip positions3D).map fun pv => ⟨pv.1, pv.2, vertexVisible b pv.1⟩

/-- Per-index clipping step.  An invisible vertex with a visible cyclic
neighbour (previous preferred, as in the source `neighbours.some`) has its
vector replaced by the boundary intersection computed by
`_computeIntermediaryPoint` (the `inter` parameter) and becomes visible
exactly when an intersection was produced; an invisible vertex with no
visible neighbour is left untouched.  The source performs this as an
in-place mutation over pairs collected before any mutation, so the
neighbour flags and vectors read here are the original ones. -/
def clipVertex {α : Type} [LinearOrderedCommRing α]
    (inter : Vec3 α → Vec3 α → Option (Vec3 α))
    (positions : List (PolyVertex α)) (i : Nat) (p : PolyVertex α) : PolyVertex α :=
  if p.visible then p
  else
    let n := positions.length
    let prev := if i = 0 then positions.getD (n - 1) p else positions.getD (i - 1) p
    let next := if i = n - 1 then positions.getD 0 p else positions.getD (i + 1) p
    let visibleNeighbour :=
      if prev.visible then some prev else if next.visible then some next else none
    match visibleNeighbour with
    | none => p
    | some q =>
      let v := inter q.vector p.vector
      { p with vector := v.getD p.vector, visible := v.isSome }

/-- Map with the element index, as the JS `Array.prototype.map` callback
receives it. -/
def mapWithIndex {α β : Type} (f : Nat → α → β) : List α → Nat → List β
  | [], _ => []
  | a :: l, i => f i a :: mapWithIndex f l (i + 1)

/-- Embeds `_getPolygonPositions` (the live path): build the flagged vertex
list, run the clipping step, keep the visible entries and project their
vectors to screen coordinates. -/
def getPolygonPositions {α : Type} [LinearOrderedCommRing α]
    (proj : Vec3 α → ScreenPos α) (inter : Vec3 α → Vec3 α → Option (Vec3 α))
    (b : FovBounds α) (polygon_rad : List (α × α)) (positions3D : List (Vec3 α)) :
    List (ScreenPos α) :=
  let positions := mkPolyVertices b polygon_rad positions3D
  let clipped := mapWithIndex (fun i p => clipVertex inter positions i p) positions 0
  (clipped.filter fun p => p.visible).map fun p => proj p.vector

/-- Embeds `_isPolygonVisible`.  The source body begins with `return true;`
— the documented test (`marker.visible` and at least one projected point
inside the viewport and in front of the camera) is dead code below that
statement — so the function always returns true. -/
def isPolygonVisible {α : Type} (_markerVisible : JSVisible)
    (_positions : List (ScreenPos α)) : Bool :=
  true

/-- The `{top, left}` value returned by `_getPolygonDimensions`: the folds
start from `+Infinity` and take `Math.min` over the projected points, so the
coordinates live in `WithTop α` with `⊤` as `Infinity`.  (The same pass also
overwrites `marker.width` and `marker.height` from the corresponding maxima;
no claim concerns those fields, and on an empty list JS would produce `NaN`
for them, so that side effect is not modelled.) -/
def getPolygonDimensions {α : Type} [LinearOrderedCommRing α]
    (positions : List (ScreenPos α)) : ScreenPos (WithTop α) :=
  { top := positions.foldl (fun acc pos => min acc (pos.top : WithTop α)) ⊤,
    left := positions.foldl (fun acc pos => min acc (pos.left : WithTop α)) ⊤ }

/-- Rendered state of a polygon marker after one `updatePositions` pass. -/
structure PolygonRender (α : Type) where
  position2D : Option (ScreenPos (WithTop α))
  visibleClass : Bool
deriving DecidableEq

/-- The polygon branch of `updatePositions`: compute the clipped positions;
when `_isPolygonVisible` holds, cache the bounding-box corner in
`position2D` and add the visible class, otherwise null the cached position
and drop the class. -/
def polygonStep {α : Type} [LinearOrderedCommRing α]
    (proj : Vec3 α → ScreenPos α) (inter : Vec3 α → Vec3 α → Option (Vec3 α))
    (b : FovBounds α) (polygon_rad : List (α × α)) (positions3D : List (Vec3 α))
    (markerVisible : JSVisible) : PolygonRender α :=
  let positions := getPolygonPositions proj inter b polygon_rad positions3D
  if isPolygonVisible markerVisible positions then
    { position2D := some (getPolygonDimensions positions), visibleClass := true }
  else
    { position2D := none, visibleClass := false }

/-- Data of a point marker read by the point branch of `updatePositions`. -/
structure PointMarkerData (α : Type) where
  visible : JSVisible
  position3D : Vec3 α
  width : α
  height : α
  anchorTop : α
  anchorLeft : α
deriving DecidableEq

/-- Embeds `_getMarkerPosition`: project the direction and shift by the
anchored fraction of the marker box.  (The `dynamicSize` branch re-reads the
rendered DOM bounding box — an external effect — and is not modelled.) -/
def getMarkerPosition {α : Type} [LinearOrderedCommRing α]
    (proj : Vec3 α → ScreenPos α) (m : PointMarkerData α) : ScreenPos α :=
  let position := proj m.position3D
  { top := position.top - m.height * m.anchorTop,
    left := position.left - m.width * m.anchorLeft }

/-- Embeds `_isMarkerVisible`: the marker flag is truthy, the direction
faces the camera (`position3D · direction > 0`, strictly), and the marker
box overlaps the viewport. -/
def isMarkerVisible {α : Type} [LinearOrderedCommRing α] (m : PointMarkerData α)
    (direction : Vec3 α) (sizeWidth sizeHeight : α) (position : ScreenPos α) : Bool :=
  m.visible.truthy &&
    decide (dot m.position3D direction > 0) &&
    decide (position.left + m.width ≥ 0) &&
    decide (position.left - m.width ≤ sizeWidth) &&
    decide (position.top + m.height ≥ 0) &&
    decide (position.top - m.height ≤ sizeHeight)

/-- Rendered state of a point marker after one `updatePositions` pass. -/
structure PointRender (α : Type) where
  position2D : Option (ScreenPos α)
  visibleClass : Bool
deriving DecidableEq

/-- The point branch of `updatePositions`: compute the anchored screen
position, then cache it and add the visible class when `_isMarkerVisible`
holds, otherwise null `position2D` and drop the class. -/
def pointMarkerStep {α : Type} [LinearOrderedCommRing α]
    (proj : Vec3 α → ScreenPos α) (m : PointMarkerData α) (direction : Vec3 α)
    (sizeWidth sizeHeight : α) : PointRender α :=
  let position := getMarkerPosition proj m
  if isMarkerVisible m direction sizeWidth sizeHeight position then
    { position2D := some position, visibleClass := true }
  else
    { position2D := none, visibleClass := false }


/-! ## Great-circle arc intersection (`_computeArcIntersection2`)

This part of the code is trigonometric, so it is embedded over `ℝ`.  The
external `vector3ToSphericalCoords` conversion of the viewer is an abstract
parameter `toSph`. -/

/-- Cross product, as `THREE.Vector3.crossVectors`. -/
def cross {α : Type} [LinearOrderedCommRing α] (u v : Vec3 α) : Vec3 α :=
  ⟨u.y * v.z - u.z * v.y, u.z * v.x - u.x * v.z, u.x * v.y - u.y * v.x⟩

/-- Scalar multiple, as `THREE.Vector3.multiplyScalar`. -/
def smul {α : Type} [LinearOrderedCommRing α] (c : α) (u : Vec3 α) : Vec3 α :=
  ⟨c * u.x, c * u.y, c * u.z⟩

/-- Euclidean norm of a 3-vector. -/
noncomputable def vnorm (u : Vec3 ℝ) : ℝ :=
  Real.sqrt (u.x ^ 2 + u.y ^ 2 + u.z ^ 2)

/-- `THREE.Vector3.normalize`: divide each component by the norm. -/
noncomputable def normalize (u : Vec3 ℝ) : Vec3 ℝ :=
  ⟨u.x / vnorm u, u.y / vnorm u, u.z / vnorm u⟩

/-- The arc distance formula used throughout `_computeArcIntersection2`:
the spherical law of cosines on two `{latitude, longitude}` pairs,
`acos(sin lat1 * sin lat2 + cos lat1 * cos lat2 * cos |lon1 - lon2|)`. -/
noncomputable def arcDist (p q : ℝ × ℝ) : ℝ :=
  Real.arccos (Real.sin p.1 * Real.sin q.1 +
    Real.cos p.1 * Real.cos q.1 * Real.cos |p.2 - q.2|)

/-- Embeds `_computeArcIntersection2`.  `U1`, `U2` are the normalized
normals of the two great circles, `S1` and its antipode `S2` the two
candidate intersection points.  The source keeps `S1` when
`P1_P2 - S1_P1 - S1_P2 < 1e-15` (otherwise tries `S2` with the analogous
test), and returns the kept candidate when the same test against the
boundary arc `P3 P4` passes; otherwise it returns null.  The `if (C)` block
of the source is rendered by running the boundary test in each branch that
sets `C`. -/
noncomputable def computeArcIntersection2 (toSph : Vec3 ℝ → ℝ × ℝ)
    (P1 P2 P3 P4 : Vec3 ℝ) : Option (Vec3 ℝ) :=
  let U1 := normalize (cross P1 P2)
  let U2 := normalize (cross P3 P4)
  let S1 := normalize (cross U1 U2)
  let S2 := smul (-1) S1
  let S1s := toSph S1
  let S2s := toSph S2
  let P1s := toSph P1
  let P2s := toSph P2
  let P3s := toSph P3
  let P4s := toSph P4
  let P1P2 := arcDist P1s P2s
  if P1P2 - arcDist S1s P1s - arcDist S1s P2s < 1e-15 then
    if arcDist P3s P4s - arcDist S1s P3s - arcDist S1s P4s < 1e-15 then some S1 else none
  else if P1P2 - arcDist S2s P1s - arcDist S2s P2s < 1e-15 then
    if arcDist P3s P4s - arcDist S2s P3s - arcDist S2s P4s < 1e-15 then some S2 else none
  else none

/-- Embeds `_computeIntermediaryPoint`: try the four frustum sides in order
and return the first non-null arc intersection. -/
noncomputable def computeIntermediaryPoint (toSph : Vec3 ℝ → ℝ × ℝ)
    (f0 f1 f2 f3 : Vec3 ℝ) (P1 P2 : Vec3 ℝ) : Option (Vec3 ℝ) :=
  [(f0, f1), (f1, f2), (f2, f3), (f3, f0)].findSome? fun side =>
    computeArcIntersection2 toSph P1 P2 side.1 side.2

/-- The point of the unit sphere with the given latitude and longitude:
every `{latitude, longitude}` pair denotes such a point, so the law of
cosines expression below is an inner product of unit vectors. -/
noncomputable def unitVec (p : ℝ × ℝ) : Vec3 ℝ :=
  ⟨Real.cos p.1 * Real.cos p.2, Real.cos p.1 * Real.sin p.2, Real.sin p.1⟩

/-! ## Registry lemmas -/

theorem findVal_cons_self {κ β : Type} [DecidableEq κ] (p : κ × β) (l : List (κ × β)) :
    findVal (p :: l) p.1 = some p.2 := by
  simp [findVal]

theorem findVal_cons_ne {κ β : Type} [DecidableEq κ] (p : κ × β) (l : List (κ × β))
    (k : κ) (h : p.1 ≠ k) : findVal (p :: l) k = findVal l k := by
  simp [findVal, h]

theorem findVal_filter_self {β : Type} (l : List (String × β)) (t : String) :
    findVal (l.filter fun p => !decide (p.1 = t)) t = none := by
  induction l with
  | nil => rfl
  | cons p l ih =>
    by_cases h : p.1 = t
    · simpa [List.filter_cons, h] using ih
    · rw [List.filter_cons, if_pos (by simp [h]), findVal_cons_ne _ _ _ h]
      exact ih

theorem findVal_filter_ne' {β : Type} (l : List (String × β)) (t k : String) (hk : k ≠ t) :
    findVal (l.filter fun p => !decide (p.1 = t)) k = findVal l k := by
  induction l with
  | nil => rfl
  | cons p l ih =>
    by_cases h : p.1 = t
    · rw [List.filter_cons, if_neg (by simp [h])]
      rw [show findVal (p :: l) k = findVal l k from findVal_cons_ne _ _ _ fun e => hk (e ▸ h)]
      exact ih
    · rw [List.filter_cons, if_pos (by simp [h])]
      by_cases hp : p.1 = k
      · subst hp
        rw [findVal_cons_self, findVal_cons_self]
      · rw [findVal_cons_ne _ _ _ hp, findVal_cons_ne _ _ _ hp]
        exact ih

theorem findVal_filter_ne {β : Type} (l : List (String × β)) (t k : String) (hk : k ≠ t) :
    findVal (l.filter fun p => decide (p.1 ≠ t)) k = findVal l k := by
  have he : (fun (p : String × β) => decide (p.1 ≠ t)) = fun p => !decide (p.1 = t) := by
    funext p
    simp [decide_not]
  rw [he]
  exact findVal_filter_ne' l t k hk

/-- `addMarker` with a fresh, non-empty id: result and resulting registry. -/
theorem addMarker_fresh (s : HudState) (props : MarkerProps) (i : String) (render : Bool)
    (hid : props.id = some i) (hne : i ≠ "") (hfresh : s.lookupMarker i = none) :
    (addMarkerOp s props render).1 = .ok s.nextRef ∧
    (addMarkerOp s props render).2 =
      { s with
        nextRef := s.nextRef + 1,
        heap := (s.nextRef, mkMarker props) :: s.heap,
        markers := (i, s.nextRef) :: s.markers,
        containerChildren :=
          if (mkMarker props).isNormal then s.nextRef :: s.containerChildren
          else s.containerChildren,
        svgChildren :=
          if (mkMarker props).isNormal then s.svgChildren
          else s.nextRef :: s.svgChildren } := by
  have h1 : ¬(props.id = none ∨ props.id = some "") := by
    simp [hid, hne]
  have h2 : props.id.getD "" = i := by simp [hid]
  have hm : (mkMarker props).id = i := by simp [mkMarker, h2]
  constructor
  · simp [addMarkerOp, h1, h2, hfresh]
  · by_cases hn : (mkMarker props).isNormal <;>
      simp [addMarkerOp, h1, h2, hfresh, hn, hm]

theorem findVal_mem {κ β : Type} [DecidableEq κ] {l : List (κ × β)} {k : κ} {v : β}
    (h : findVal l k = some v) : (k, v) ∈ l := by
  induction l with
  | nil => simp [findVal] at h
  | cons p l ih =>
    by_cases hp : p.1 = k
    · rw [findVal, if_pos hp] at h
      obtain rfl : p.2 = v := by injection h
      exact (show p = (k, p.2) by rw [← hp]) ▸ List.mem_cons_self p l
    · rw [findVal, if_neg hp] at h
      exact List.mem_cons_of_mem _ (ih h)

/-- Unpacking of well-formedness at a registered pair. -/
theorem wf_spec {s : HudState} (hwf : s.wf = true) {p : String × Nat} (hp : p ∈ s.markers) :
    p.2 < s.nextRef ∧ ∃ m, s.heapGet p.2 = some m ∧ m.id = p.1 := by
  have h := List.all_eq_true.mp hwf p hp
  cases hq : s.heapGet p.2 with
  | none => rw [hq] at h; simp at h
  | some m =>
    rw [hq] at h
    simp only [Bool.and_eq_true, decide_eq_true_eq] at h
    exact ⟨h.1, m, rfl, h.2⟩

/-- Packing of well-formedness. -/
theorem wf_of (s : HudState)
    (h : ∀ p ∈ s.markers, p.2 < s.nextRef ∧ ∃ m, s.heapGet p.2 = some m ∧ m.id = p.1) :
    s.wf = true := by
  apply List.all_eq_true.mpr
  intro p hp
  obtain ⟨h1, m, hm, hid⟩ := h p hp
  rw [hm]
  simp [h1, hid]

/-- The registry is untouched by a heap write. -/
theorem heapSet_lookupMarker (s : HudState) (r : Nat) (m : MarkerObj) (i : String) :
    (s.heapSet r m).lookupMarker i = s.lookupMarker i := rfl

/-- A heap write at a live reference that keeps the object id preserves
well-formedness. -/
theorem wf_heapSet (s : HudState) (r : Nat) (m m' : MarkerObj)
    (hwf : s.wf = true) (hm : s.heapGet r = some m) (hid : m'.id = m.id) :
    (s.heapSet r m').wf = true := by
  apply wf_of
  intro p hp
  obtain ⟨h1, m0, hm0, hid0⟩ := wf_spec hwf hp
  refine ⟨h1, ?_⟩
  by_cases hr : p.2 = r
  · subst hr
    obtain rfl : m0 = m := by injection hm0.symm.trans hm
    exact ⟨m', by simp [HudState.heapSet, HudState.heapGet, findVal], by rw [hid, hid0]⟩
  · refine ⟨m0, ?_, hid0⟩
    show findVal ((r, m') :: s.heap) p.2 = some m0
    rw [findVal_cons_ne _ _ _ fun e => hr e.symm]
    exact hm0

/-- Characterization of the state after a successful `removeMarker`. -/
theorem removeMarker_state (s : HudState) (t : String) (rn : Bool) (r : Nat) (m : MarkerObj)
    (hl : s.lookupMarker t = some r) (hm : s.heapGet r = some m) :
    (removeMarkerOp s t rn).2 =
      { s with
        containerChildren :=
          if m.isNormal then s.containerChildren.filter (· ≠ r) else s.containerChildren,
        svgChildren :=
          if m.isNormal then s.svgChildren else s.svgChildren.filter (· ≠ r),
        tooltipVisible := if s.hoveringMarker = some r then false else s.tooltipVisible,
        markers := s.markers.filter fun p => p.1 ≠ m.id } := by
  have hres : getMarkerRes s t = .ok r := by simp [getMarkerRes, hl]
  by_cases hn : m.isNormal <;> by_cases hh : s.hoveringMarker = some r <;>
    simp [removeMarkerOp, hres, hm, hn, hh]

/-- `removeMarker` preserves well-formedness. -/
theorem wf_removeMarker (s : HudState) (t : String) (rn : Bool) (hwf : s.wf = true) :
    (removeMarkerOp s t rn).2.wf = true := by
  cases hl : s.lookupMarker t with
  | none => simpa [removeMarkerOp, getMarkerRes, hl] using hwf
  | some r =>
    cases hm : s.heapGet r with
    | none => simpa [removeMarkerOp, getMarkerRes, hl, hm] using hwf
    | some m =>
      rw [removeMarker_state s t rn r m hl hm]
      apply wf_of
      intro p hp
      exact wf_spec hwf (List.mem_of_mem_filter hp)

/-- `addMarker` preserves well-formedness. -/
theorem wf_addMarker (s : HudState) (props : MarkerProps) (rn : Bool) (hwf : s.wf = true) :
    (addMarkerOp s props rn).2.wf = true := by
  by_cases h0 : props.id = none ∨ props.id = some ""
  · simpa [addMarkerOp, h0] using hwf
  · obtain ⟨i, hi⟩ : ∃ i, props.id = some i := by
      cases hp : props.id with
      | none => exact absurd (Or.inl hp) h0
      | some v => exact ⟨v, rfl⟩
    have hne : i ≠ "" := fun e => h0 (Or.inr (by rw [hi, e]))
    by_cases hdup : (s.lookupMarker i).isSome
    · have h2 : props.id.getD "" = i := by simp [hi]
      simpa [addMarkerOp, h0, h2, hdup] using hwf
    · have hfresh : s.lookupMarker i = none := Option.not_isSome_iff_eq_none.mp hdup
      rw [(addMarker_fresh s props i rn hi hne hfresh).2]
      apply wf_of
      intro p hp
      rcases List.mem_cons.mp hp with he | hp
      · subst he
        refine ⟨Nat.lt_succ_self _, mkMarker props, ?_, by simp [mkMarker, hi]⟩
        show findVal ((s.nextRef, mkMarker props) :: s.heap) s.nextRef = some _
        exact findVal_cons_self (s.nextRef, mkMarker props) s.heap
      · obtain ⟨h1, m0, hm0, hid0⟩ := wf_spec hwf hp
        refine ⟨Nat.lt_succ_of_lt h1, m0, ?_, hid0⟩
        show findVal ((s.nextRef, mkMarker props) :: s.heap) p.2 = some m0
        rw [findVal_cons_ne _ _ _ (Nat.ne_of_gt h1)]
        exact hm0

/-- `gotoMarker` leaves the state unchanged. -/
theorem gotoMarker_state (s : HudState) (t : String) : (gotoMarkerOp s t).2 = s := by
  cases h : getMarkerRes s t <;> simp [gotoMarkerOp, h]

/-- The update-flavoured operations preserve well-formedness. -/
theorem wf_applyOp (s : HudState) (op : HudOp) (hwf : s.wf = true) :
    (applyOp s op).wf = true := by
  cases op with
  | addOp props rn => exact wf_addMarker s props rn hwf
  | removeOp t rn => exact wf_removeMarker s t rn hwf
  | clearOp rn =>
    show ((s.markers.map Prod.fst).foldl (fun st id => (removeMarkerOp st id false).2) s).wf = true
    generalize s.markers.map Prod.fst = ids
    induction ids generalizing s with
    | nil => exact hwf
    | cons id ids ih => exact ih _ (wf_removeMarker s id false hwf)
  | gotoOp t => rw [show applyOp s (.gotoOp t) = (gotoMarkerOp s t).2 from rfl,
      gotoMarker_state]; exact hwf
  | updateOp t v rn =>
    show (updateMarkerOp s t v rn).2.wf = true
    cases hl : getMarkerRes s t with
    | error e => simpa [updateMarkerOp, hl] using hwf
    | ok r =>
      cases hm : s.heapGet r with
      | none => simpa [updateMarkerOp, hl, hm] using hwf
      | some m =>
        have : (updateMarkerOp s t v rn).2 = s.heapSet r (mergeMarker m v) := by
          simp [updateMarkerOp, hl, hm]
        rw [this]
        exact wf_heapSet s r m _ hwf hm rfl
  | hideOp t =>
    show (hideMarkerOp s t).2.wf = true
    cases hl : getMarkerRes s t with
    | error e => simpa [hideMarkerOp, hl] using hwf
    | ok r =>
      cases hm : s.heapGet r with
      | none => simpa [hideMarkerOp, hl, hm] using hwf
      | some m =>
        have : (hideMarkerOp s t).2 = s.heapSet r { m with visible := .bool false } := by
          simp [hideMarkerOp, hl, hm]
        rw [this]
        exact wf_heapSet s r m _ hwf hm rfl
  | showOp t =>
    show (showMarkerOp s t).2.wf = true
    cases hl : getMarkerRes s t with
    | error e => simpa [showMarkerOp, hl] using hwf
    | ok r =>
      cases hm : s.heapGet r with
      | none => simpa [showMarkerOp, hl, hm] using hwf
      | some m =>
        have : (showMarkerOp s t).2 = s.heapSet r { m with visible := .bool true } := by
          simp [showMarkerOp, hl, hm]
        rw [this]
        exact wf_heapSet s r m _ hwf hm rfl
  | toggleOp t =>
    show (toggleMarkerOp s t).2.wf = true
    cases hl : getMarkerRes s t with
    | error e => simpa [toggleMarkerOp, hl] using hwf
    | ok r =>
      cases hm : s.heapGet r with
      | none => simpa [toggleMarkerOp, hl, hm] using hwf
      | some m =>
        have : (toggleMarkerOp s t).2 = s.heapSet r { m with visible := toggleVisible m.visible } := by
          simp [toggleMarkerOp, hl, hm]
        rw [this]
        exact wf_heapSet s r m _ hwf hm rfl

/-- An operation that does not remove the id keeps its registry binding. -/
theorem lookup_applyOp (s : HudState) (op : HudOp) (i : String) (r : Nat)
    (hwf : s.wf = true) (hl : s.lookupMarker i = some r) (hop : op.removesId i = false) :
    (applyOp s op).lookupMarker i = some r := by
  cases op with
  | addOp props rn =>
    by_cases h0 : props.id = none ∨ props.id = some ""
    · simpa [applyOp, addMarkerOp, h0] using hl
    · obtain ⟨i', hi'⟩ : ∃ i', props.id = some i' := by
        cases hp : props.id with
        | none => exact absurd (Or.inl hp) h0
        | some v => exact ⟨v, rfl⟩
      have hne : i' ≠ "" := fun e => h0 (Or.inr (by rw [hi', e]))
      by_cases hdup : (s.lookupMarker i').isSome
      · have h2 : props.id.getD "" = i' := by simp [hi']
        simpa [applyOp, addMarkerOp, h0, h2, hdup] using hl
      · have hfresh : s.lookupMarker i' = none := Option.not_isSome_iff_eq_none.mp hdup
        have hii : i' ≠ i := fun e => by rw [e, hl] at hfresh; exact Option.noConfusion hfresh
        show (addMarkerOp s props rn).2.lookupMarker i = some r
        rw [(addMarker_fresh s props i' rn hi' hne hfresh).2]
        show findVal ((i', s.nextRef) :: s.markers) i = some r
        rw [findVal_cons_ne _ _ _ hii]
        exact hl
  | removeOp t rn =>
    have hti : t ≠ i := by
      intro e
      rw [show HudOp.removesId (.removeOp t rn) i = decide (t = i) from rfl] at hop
      rw [e] at hop
      simp at hop
    cases hlt : s.lookupMarker t with
    | none => simpa [applyOp, removeMarkerOp, getMarkerRes, hlt] using hl
    | some rt =>
      cases hmt : s.heapGet rt with
      | none => simpa [applyOp, removeMarkerOp, getMarkerRes, hlt, hmt] using hl
      | some m =>
        obtain ⟨_, m0, hm0, hid0⟩ := wf_spec hwf (findVal_mem hlt)
        have hmm : m = m0 := by injection hmt.symm.trans hm0
        subst hmm
        have hid1 : m.id = t := hid0
        show (removeMarkerOp s t rn).2.lookupMarker i = some r
        rw [removeMarker_state s t rn rt m hlt hmt]
        simp only [HudState.lookupMarker]
        rw [hid1]
        rw [findVal_filter_ne _ _ _ fun e => hti e.symm]
        exact hl
  | clearOp rn => simp [HudOp.removesId] at hop
  | gotoOp t =>
    rw [show applyOp s (.gotoOp t) = (gotoMarkerOp s t).2 from rfl, gotoMarker_state]
    exact hl
  | updateOp t v rn =>
    show (updateMarkerOp s t v rn).2.lookupMarker i = some r
    cases hlt : getMarkerRes s t with
    | error e => simpa [updateMarkerOp, hlt] using hl
    | ok rt =>
      cases hmt : s.heapGet rt with
      | none => simpa [updateMarkerOp, hlt, hmt] using hl
      | some m =>
        have : (updateMarkerOp s t v rn).2 = s.heapSet rt (mergeMarker m v) := by
          simp [updateMarkerOp, hlt, hmt]
        rw [this, heapSet_lookupMarker]
        exact hl
  | hideOp t =>
    show (hideMarkerOp s t).2.lookupMarker i = some r
    cases hlt : getMarkerRes s t with
    | error e => simpa [hideMarkerOp, hlt] using hl
    | ok rt =>
      cases hmt : s.heapGet rt with
      | none => simpa [hideMarkerOp, hlt, hmt] using hl
      | some m =>
        have : (hideMarkerOp s t).2 = s.heapSet rt { m with visible := .bool false } := by
          simp [hideMarkerOp, hlt, hmt]
        rw [this, heapSet_lookupMarker]
        exact hl
  | showOp t =>
    show (showMarkerOp s t).2.lookupMarker i = some r
    cases hlt : getMarkerRes s t with
    | error e => simpa [showMarkerOp, hlt] using hl
    | ok rt =>
      cases hmt : s.heapGet rt with
      | none => simpa [showMarkerOp, hlt, hmt] using hl
      | some m =>
        have : (showMarkerOp s t).2 = s.heapSet rt { m with visible := .bool true } := by
          simp [showMarkerOp, hlt, hmt]
        rw [this, heapSet_lookupMarker]
        exact hl
  | toggleOp t =>
    show (toggleMarkerOp s t).2.lookupMarker i = some r
    cases hlt : getMarkerRes s t with
    | error e => simpa [toggleMarkerOp, hlt] using hl
    | ok rt =>
      cases hmt : s.heapGet rt with
      | none => simpa [toggleMarkerOp, hlt, hmt] using hl
      | some m =>
        have : (toggleMarkerOp s t).2 = s.heapSet rt { m with visible := toggleVisible m.visible } := by
          simp [toggleMarkerOp, hlt, hmt]
        rw [this, heapSet_lookupMarker]
        exact hl

/-- Registry bindings survive any sequence of operations that never removes
the id (and never clears). -/
theorem applyOps_preserves (L : List HudOp) (s : HudState) (i : String) (r : Nat)
    (hwf : s.wf = true) (hl : s.lookupMarker i = some r)
    (hL : ∀ op ∈ L, op.removesId i = false) :
    (applyOps s L).wf = true ∧ (applyOps s L).lookupMarker i = some r := by
  induction L generalizing s with
  | nil => exact ⟨hwf, hl⟩
  | cons op L ih =>
    have h1 := wf_applyOp s op hwf
    have h2 := lookup_applyOp s op i r hwf hl (hL op (List.mem_cons_self op L))
    exact ih (applyOp s op) h1 h2 fun o ho => hL o (List.mem_cons_of_mem op ho)

/-! ## Claim theorems: registry -/

/-- C3: for every state and every properties object whose id is already
registered, `addMarker` raises the duplicate-id error and leaves the state
(in particular the registry) completely unchanged. -/
theorem addMarker_duplicate (s : HudState) (props : MarkerProps) (i : String) (render : Bool)
    (hid : props.id = some i) (hne : i ≠ "") (hdup : (s.lookupMarker i).isSome = true) :
    addMarkerOp s props render = (.error (.duplicateId i), s) := by
  have h1 : ¬(props.id = none ∨ props.id = some "") := by
    simp [hid, hne]
  have h2 : props.id.getD "" = i := by simp [hid]
  simp [addMarkerOp, h1, h2, hdup]

/-- Witness for C3 at a concrete state holding a marker with id `m`. -/
theorem addMarker_duplicate_witness :
    ((sampleState.lookupMarker "m").isSome = true) ∧
    addMarkerOp sampleState ⟨some "m", .bool false, false⟩ true =
      (.error (.duplicateId "m"), sampleState) :=
  ⟨by decide,
    addMarker_duplicate sampleState ⟨some "m", .bool false, false⟩ "m" true rfl
      (by decide) (by decide)⟩

/-- C5: for a properties object with a fresh id, `addMarker` returns the
marker it created and registered, and `getMarker` on that id returns the
same object. -/
theorem addMarker_returns_registered (s : HudState) (props : MarkerProps) (i : String)
    (render : Bool) (hid : props.id = some i) (hne : i ≠ "")
    (hfresh : s.lookupMarker i = none) :
    (addMarkerOp s props render).1 = .ok s.nextRef ∧
    (addMarkerOp s props render).2.lookupMarker i = some s.nextRef ∧
    getMarkerRes (addMarkerOp s props render).2 i = .ok s.nextRef ∧
    (addMarkerOp s props render).2.heapGet s.nextRef = some (mkMarker props) := by
  obtain ⟨hres, hstate⟩ := addMarker_fresh s props i render hid hne hfresh
  refine ⟨hres, ?_, ?_, ?_⟩
  · rw [hstate]
    simp [HudState.lookupMarker, findVal]
  · rw [hstate]
    simp [getMarkerRes, HudState.lookupMarker, findVal]
  · rw [hstate]
    simp [HudState.heapGet, findVal]

/-- Witness for C5 at a concrete empty state. -/
theorem addMarker_returns_registered_witness :
    (emptyState.lookupMarker "p" = none) ∧
    (addMarkerOp emptyState ⟨some "p", .bool true, true⟩ true).1 = .ok 0 ∧
    getMarkerRes (addMarkerOp emptyState ⟨some "p", .bool true, true⟩ true).2 "p" = .ok 0 :=
  ⟨rfl,
    (addMarker_returns_registered emptyState ⟨some "p", .bool true, true⟩ "p" true rfl
      (by decide) rfl).1,
    (addMarker_returns_registered emptyState ⟨some "p", .bool true, true⟩ "p" true rfl
      (by decide) rfl).2.2.1⟩

/-- C4: a marker added with a fresh id keeps its registry binding — later
`getMarker` calls return the very same object (reference) — across every
operation sequence that does not remove it; and after `removeMarker` on its
id, `getMarker` raises the not-found error. -/
theorem getMarker_stable_until_removed (s : HudState) (props : MarkerProps) (i : String)
    (L : List HudOp) (hwf : s.wf = true) (hid : props.id = some i) (hne : i ≠ "")
    (hfresh : s.lookupMarker i = none) (hL : ∀ op ∈ L, op.removesId i = false) :
    (addMarkerOp s props true).1 = .ok s.nextRef ∧
    getMarkerRes (applyOps (addMarkerOp s props true).2 L) i = .ok s.nextRef ∧
    getMarkerRes
      (removeMarkerOp (applyOps (addMarkerOp s props true).2 L) i true).2 i =
      .error (.notFound i) := by
  obtain ⟨hres, hstate⟩ := addMarker_fresh s props i true hid hne hfresh
  have hwf1 : (addMarkerOp s props true).2.wf = true := wf_addMarker s props true hwf
  have hl1 : (addMarkerOp s props true).2.lookupMarker i = some s.nextRef := by
    rw [hstate]
    exact findVal_cons_self (i, s.nextRef) s.markers
  obtain ⟨hwf2, hl2⟩ := applyOps_preserves L _ i s.nextRef hwf1 hl1 hL
  refine ⟨hres, by simp [getMarkerRes, hl2], ?_⟩
  obtain ⟨_, m, hm, hmi⟩ := wf_spec hwf2 (findVal_mem hl2)
  rw [removeMarker_state _ i true s.nextRef m hl2 hm]
  simp only [getMarkerRes, HudState.lookupMarker]
  rw [hmi]
  have he : (fun (p : String × Nat) => decide (p.1 ≠ i)) = fun p => !decide (p.1 = i) := by
    funext p
    simp [decide_not]
  rw [he, findVal_filter_self]

/-- Witness for C4: a concrete add, a sequence of other operations, then a
remove of the added id. -/
theorem getMarker_stable_until_removed_witness :
    (emptyState.wf = true ∧ emptyState.lookupMarker "q" = none ∧
      (∀ op ∈ ([.hideOp "q", .addOp ⟨some "z", .bool true, false⟩ true,
          .toggleOp "q", .removeOp "z" true] : List HudOp), op.removesId "q" = false)) ∧
    getMarkerRes
      (applyOps (addMarkerOp emptyState ⟨some "q", .bool true, true⟩ true).2
        [.hideOp "q", .addOp ⟨some "z", .bool true, false⟩ true,
          .toggleOp "q", .removeOp "z" true]) "q" = .ok 0 ∧
    getMarkerRes
      (removeMarkerOp
        (applyOps (addMarkerOp emptyState ⟨some "q", .bool true, true⟩ true).2
          [.hideOp "q", .addOp ⟨some "z", .bool true, false⟩ true,
            .toggleOp "q", .removeOp "z" true]) "q" true).2 "q" =
      .error (.notFound "q") :=
  ⟨⟨by decide, rfl, by decide⟩,
    (getMarker_stable_until_removed emptyState ⟨some "q", .bool true, true⟩ "q"
      [.hideOp "q", .addOp ⟨some "z", .bool true, false⟩ true,
        .toggleOp "q", .removeOp "z" true] (by decide) rfl (by decide) rfl (by decide)).2.1,
    (getMarker_stable_until_removed emptyState ⟨some "q", .bool true, true⟩ "q"
      [.hideOp "q", .addOp ⟨some "z", .bool true, false⟩ true,
        .toggleOp "q", .removeOp "z" true] (by decide) rfl (by decide) rfl (by decide)).2.2⟩

/-- C9 counterexample: at a concrete state where the hovering marker is the
removed marker, `removeMarker` deletes the registry entry and closes the
tooltip but the hovering-marker slot still refers to the removed marker. -/
theorem removeMarker_hover_not_cleared :
    ((removeMarkerOp sampleHoverState "m" true).2.hoveringMarker = some 0) ∧
    ((removeMarkerOp sampleHoverState "m" true).2.lookupMarker "m" = none) := by
  decide

/-- C9 (amended): removing the currently hovered marker closes any open
tooltip, detaches its element from its surface and deletes it from the
registry, but does not clear the hovering-marker slot, which still refers to
the removed marker after the call. -/
theorem removeMarker_hovering (s : HudState) (t : String) (r : Nat) (m : MarkerObj)
    (hl : s.lookupMarker t = some r) (hm : s.heapGet r = some m) (hid : m.id = t)
    (hh : s.hoveringMarker = some r) :
    (removeMarkerOp s t true).2.tooltipVisible = false ∧
    (removeMarkerOp s t true).2.lookupMarker t = none ∧
    (removeMarkerOp s t true).2.hoveringMarker = some r ∧
    (m.isNormal = true →
      (removeMarkerOp s t true).2.containerChildren = s.containerChildren.filter (· ≠ r)) ∧
    (m.isNormal = false →
      (removeMarkerOp s t true).2.svgChildren = s.svgChildren.filter (· ≠ r)) := by
  have hres : getMarkerRes s t = .ok r := by simp [getMarkerRes, hl]
  by_cases hn : m.isNormal <;>
    simp [removeMarkerOp, hres, hm, hn, hh, hid, HudState.lookupMarker,
      findVal_filter_self, hn]

/-- Witness for C9 (amended) at a concrete state. -/
theorem removeMarker_hovering_witness :
    (sampleHoverState.lookupMarker "m" = some 0) ∧
    ((removeMarkerOp sampleHoverState "m" true).2.tooltipVisible = false ∧
      (removeMarkerOp sampleHoverState "m" true).2.hoveringMarker = some 0) :=
  ⟨rfl,
    (removeMarker_hovering sampleHoverState "m" 0 ⟨"m", .bool true, true⟩ rfl rfl rfl rfl).1,
    (removeMarker_hovering sampleHoverState "m" 0 ⟨"m", .bool true, true⟩ rfl rfl rfl
      rfl).2.2.1⟩

/-- C10: toggling a registered marker stores the number 0 or 1 into its
`visible` field (the xor-assignment coerces to a number), and toggling twice
restores the original truthiness. -/
theorem toggleMarker_involution (s : HudState) (t : String) (r : Nat) (m : MarkerObj)
    (hl : s.lookupMarker t = some r) (hm : s.heapGet r = some m)
    (hv : m.visible = .bool true ∨ m.visible = .bool false ∨
      m.visible = .num 0 ∨ m.visible = .num 1) :
    (toggleMarkerOp s t).2.heapGet r = some { m with visible := toggleVisible m.visible } ∧
    (toggleVisible m.visible = .num 0 ∨ toggleVisible m.visible = .num 1) ∧
    (toggleMarkerOp (toggleMarkerOp s t).2 t).2.heapGet r =
      some { m with visible := toggleVisible (toggleVisible m.visible) } ∧
    (toggleVisible (toggleVisible m.visible)).truthy = m.visible.truthy := by
  have hres : getMarkerRes s t = .ok r := by simp [getMarkerRes, hl]
  have h1 : (toggleMarkerOp s t).2 =
      s.heapSet r { m with visible := toggleVisible m.visible } := by
    simp [toggleMarkerOp, hres, hm]
  have hl1 : (s.heapSet r { m with visible := toggleVisible m.visible }).lookupMarker t =
      some r := by
    simpa [HudState.heapSet, HudState.lookupMarker] using hl
  have hm1 : (s.heapSet r { m with visible := toggleVisible m.visible }).heapGet r =
      some { m with visible := toggleVisible m.visible } := by
    simp [HudState.heapSet, HudState.heapGet, findVal]
  have hres1 : getMarkerRes (s.heapSet r { m with visible := toggleVisible m.visible }) t =
      .ok r := by simp [getMarkerRes, hl1]
  have h2 : (toggleMarkerOp (s.heapSet r { m with visible := toggleVisible m.visible }) t).2 =
      (s.heapSet r { m with visible := toggleVisible m.visible }).heapSet r
        { m with visible := toggleVisible (toggleVisible m.visible) } := by
    simp [toggleMarkerOp, hres1, hm1]
  refine ⟨by rw [h1]; exact hm1, ?_, ?_, ?_⟩
  · rcases hv with h | h | h | h <;> rw [h] <;> decide
  · rw [h1, h2]
    simp [HudState.heapSet, HudState.heapGet, findVal]
  · rcases hv with h | h | h | h <;> rw [h] <;> decide
/-! ## Geometry lemmas -/

theorem mapWithIndex_eq_self {α : Type} (f : Nat → α → α) (l : List α)
    (h : ∀ i a, a ∈ l → f i a = a) : ∀ n, mapWithIndex f l n = l := by
  induction l with
  | nil => intro n; rfl
  | cons a l ih =>
    intro n
    rw [mapWithIndex, h n a (List.mem_cons_self a l)]
    rw [ih (fun i a ha => h i a (List.mem_cons_of_mem _ ha)) (n + 1)]

theorem getD_visible_of_all {α : Type} {l : List (PolyVertex α)} {b : Bool}
    (h : ∀ q ∈ l, q.visible = b) {d : PolyVertex α} (hd : d.visible = b) (j : Nat) :
    (l.getD j d).visible = b := by
  rw [List.getD_eq_getElem?_getD]
  cases hq : l[j]? with
  | none => simpa using hd
  | some a => simpa using h a (List.getElem?_mem hq)

theorem mkPolyVertices_visible {α : Type} [LinearOrderedCommRing α] (b : FovBounds α)
    (polygon_rad : List (α × α)) (positions3D : List (Vec3 α)) (v : Bool)
    (h : ∀ pos ∈ polygon_rad, vertexVisible b pos = v) :
    ∀ p ∈ mkPolyVertices b polygon_rad positions3D, p.visible = v := by
  intro p hp
  obtain ⟨pv, hpv, rfl⟩ := List.mem_map.mp hp
  exact h pv.1 (List.of_mem_zip hpv).1

/-! ## Claim theorems: geometry -/

/-- C6: a polygon vertex `(latitude, longitude)` passes the spherical
inclusion test iff its latitude is strictly between the two latitude bounds
and its longitude satisfies the strict bounds — as a disjunction when the
horizontal window wraps (`longitude1 > longitude2`), as a conjunction
otherwise. -/
theorem vertexVisible_characterization {α : Type} [LinearOrderedCommRing α]
    (b : FovBounds α) (lat lon : α) :
    vertexVisible b (lat, lon) = true ↔
      (b.latitude1 < lat ∧ lat < b.latitude2 ∧
        if b.longitude1 > b.longitude2 then
          (b.longitude1 < lon ∨ lon < b.longitude2)
        else
          (b.longitude1 < lon ∧ lon < b.longitude2)) := by
  by_cases hlat : b.latitude1 < lat ∧ lat < b.latitude2
  · by_cases hw : b.longitude1 > b.longitude2 <;>
      simp [vertexVisible, hlat.1, hlat.2, hw]
  · rw [Decidable.not_and_iff_or_not] at hlat
    rcases hlat with h | h <;> simp [vertexVisible, h]

/-- C7: when every vertex passes the inclusion test, the clipped point list
is exactly the projection of the input vertex list — same length, same
order, pointwise the projection of the corresponding vertex. -/
theorem polygon_all_visible {α : Type} [LinearOrderedCommRing α]
    (proj : Vec3 α → ScreenPos α) (inter : Vec3 α → Vec3 α → Option (Vec3 α))
    (b : FovBounds α) (polygon_rad : List (α × α)) (positions3D : List (Vec3 α))
    (hlen : polygon_rad.length = positions3D.length)
    (hvis : ∀ pos ∈ polygon_rad, vertexVisible b pos = true) :
    getPolygonPositions proj inter b polygon_rad positions3D = positions3D.map proj := by
  have hall := mkPolyVertices_visible b polygon_rad positions3D true hvis
  simp only [getPolygonPositions]
  rw [mapWithIndex_eq_self _ _ (fun i a ha => by simp [clipVertex, hall a ha]) 0]
  rw [List.filter_eq_self.mpr fun a ha => hall a ha]
  rw [mkPolyVertices, List.map_map]
  rw [show ((fun p : PolyVertex α => proj p.vector) ∘ fun pv : (α × α) × Vec3 α =>
      (⟨pv.1, pv.2, vertexVisible b pv.1⟩ : PolyVertex α)) = proj ∘ Prod.snd from rfl]
  rw [← List.map_map]
  rw [List.map_snd_zip polygon_rad positions3D (le_of_eq hlen.symm)]

/-- Witness for C7 over `ℤ` with a concrete all-visible triangle. -/
theorem polygon_all_visible_witness :
    (∀ pos ∈ ([(1, 1), (2, 3), (1, 2)] : List (ℤ × ℤ)),
      vertexVisible ⟨0, 10, 0, 10, false⟩ pos = true) ∧
    getPolygonPositions (fun v : Vec3 ℤ => ⟨v.x, v.y⟩) (fun _ _ => none)
        ⟨0, 10, 0, 10, false⟩ [(1, 1), (2, 3), (1, 2)] [⟨1, 0, 0⟩, ⟨0, 1, 0⟩, ⟨0, 0, 1⟩] =
      ([⟨1, 0, 0⟩, ⟨0, 1, 0⟩, ⟨0, 0, 1⟩] : List (Vec3 ℤ)).map fun v => ⟨v.x, v.y⟩ :=
  ⟨by decide,
    polygon_all_visible (fun v : Vec3 ℤ => ⟨v.x, v.y⟩) (fun _ _ => none)
      ⟨0, 10, 0, 10, false⟩ [(1, 1), (2, 3), (1, 2)] [⟨1, 0, 0⟩, ⟨0, 1, 0⟩, ⟨0, 0, 1⟩]
      (by decide) (by decide)⟩

/-- C1 (code divergence): when no vertex passes the inclusion test, the
clipped point list is indeed empty — but the marker is not marked invisible:
`_isPolygonVisible` is short-circuited to `return true`, so the pass caches
`position2D = {top: Infinity, left: Infinity}` (the fold of `Math.min` over
no points) and adds the visible class, instead of setting `position2D` to
null. -/
theorem polygon_none_visible {α : Type} [LinearOrderedCommRing α]
    (proj : Vec3 α → ScreenPos α) (inter : Vec3 α → Vec3 α → Option (Vec3 α))
    (b : FovBounds α) (polygon_rad : List (α × α)) (positions3D : List (Vec3 α))
    (markerVisible : JSVisible)
    (hinv : ∀ pos ∈ polygon_rad, vertexVisible b pos = false) :
    getPolygonPositions proj inter b polygon_rad positions3D = [] ∧
    (polygonStep proj inter b polygon_rad positions3D markerVisible).position2D =
      some ⟨⊤, ⊤⟩ ∧
    (polygonStep proj inter b polygon_rad positions3D markerVisible).visibleClass = true := by
  have hall := mkPolyVertices_visible b polygon_rad positions3D false hinv
  have hclip : ∀ i a, a ∈ mkPolyVertices b polygon_rad positions3D →
      clipVertex inter (mkPolyVertices b polygon_rad positions3D) i a = a := by
    intro i a ha
    have hav := hall a ha
    have hprev := getD_visible_of_all hall hav
    have hd1 : (if i = 0 then
        (mkPolyVertices b polygon_rad positions3D).getD
          ((mkPolyVertices b polygon_rad positions3D).length - 1) a
      else (mkPolyVertices b polygon_rad positions3D).getD (i - 1) a).visible = false := by
      by_cases h0 : i = 0
      · rw [if_pos h0]; exact hprev _
      · rw [if_neg h0]; exact hprev _
    have hd2 : (if i = (mkPolyVertices b polygon_rad positions3D).length - 1 then
        (mkPolyVertices b polygon_rad positions3D).getD 0 a
      else (mkPolyVertices b polygon_rad positions3D).getD (i + 1) a).visible = false := by
      by_cases h0 : i = (mkPolyVertices b polygon_rad positions3D).length - 1
      · rw [if_pos h0]; exact hprev _
      · rw [if_neg h0]; exact hprev _
    simp only [clipVertex, hav, Bool.false_eq_true, if_false, hd1, hd2]
  have hempty : getPolygonPositions proj inter b polygon_rad positions3D = [] := by
    simp only [getPolygonPositions]
    rw [mapWithIndex_eq_self _ _ hclip 0]
    rw [List.filter_eq_nil_iff.mpr fun a ha => by simp [hall a ha]]
    rfl
  refine ⟨hempty, ?_, ?_⟩ <;>
    simp [polygonStep, hempty, isPolygonVisible, getPolygonDimensions]

/-- Witness for C1 over `ℤ` with a concrete fully-invisible triangle. -/
theorem polygon_none_visible_witness :
    (∀ pos ∈ ([(20, 1), (20, 3), (20, 2)] : List (ℤ × ℤ)),
      vertexVisible ⟨0, 10, 0, 10, false⟩ pos = false) ∧
    getPolygonPositions (fun v : Vec3 ℤ => ⟨v.x, v.y⟩) (fun _ _ => none)
        ⟨0, 10, 0, 10, false⟩ [(20, 1), (20, 3), (20, 2)]
        [⟨1, 0, 0⟩, ⟨0, 1, 0⟩, ⟨0, 0, 1⟩] = [] ∧
    (polygonStep (fun v : Vec3 ℤ => ⟨v.x, v.y⟩) (fun _ _ => none) ⟨0, 10, 0, 10, false⟩
        [(20, 1), (20, 3), (20, 2)] [⟨1, 0, 0⟩, ⟨0, 1, 0⟩, ⟨0, 0, 1⟩]
        (.bool true)).position2D = some ⟨⊤, ⊤⟩ :=
  ⟨by decide,
    (polygon_none_visible (fun v : Vec3 ℤ => ⟨v.x, v.y⟩) (fun _ _ => none)
      ⟨0, 10, 0, 10, false⟩ [(20, 1), (20, 3), (20, 2)] [⟨1, 0, 0⟩, ⟨0, 1, 0⟩, ⟨0, 0, 1⟩]
      (.bool true) (by decide)).1,
    (polygon_none_visible (fun v : Vec3 ℤ => ⟨v.x, v.y⟩) (fun _ _ => none)
      ⟨0, 10, 0, 10, false⟩ [(20, 1), (20, 3), (20, 2)] [⟨1, 0, 0⟩, ⟨0, 1, 0⟩, ⟨0, 0, 1⟩]
      (.bool true) (by decide)).2.1⟩

/-- C8: a point marker whose direction has negative dot product with the
camera direction fails `_isMarkerVisible` whatever its screen overlap, so
the pass nulls its `position2D`. -/
theorem pointMarker_behind_camera {α : Type} [LinearOrderedCommRing α]
    (proj : Vec3 α → ScreenPos α) (m : PointMarkerData α) (direction : Vec3 α)
    (sizeWidth sizeHeight : α) (position : ScreenPos α)
    (hdot : dot m.position3D direction < 0) :
    isMarkerVisible m direction sizeWidth sizeHeight position = false ∧
    (pointMarkerStep proj m direction sizeWidth sizeHeight).position2D = none ∧
    (pointMarkerStep proj m direction sizeWidth sizeHeight).visibleClass = false := by
  have hvis : ∀ pos : ScreenPos α,
      isMarkerVisible m direction sizeWidth sizeHeight pos = false := by
    intro pos
    simp [isMarkerVisible, not_lt.mpr (le_of_lt hdot)]
  refine ⟨hvis position, ?_, ?_⟩ <;> simp [pointMarkerStep, hvis]

/-- Witness for C8 over `ℤ` with a marker exactly opposite the camera but
anchored at the viewport centre. -/
theorem pointMarker_behind_camera_witness :
    dot (⟨0, 0, 1⟩ : Vec3 ℤ) ⟨0, 0, -1⟩ < 0 ∧
    isMarkerVisible (⟨.bool true, ⟨0, 0, 1⟩, 2, 2, 0, 0⟩ : PointMarkerData ℤ)
      ⟨0, 0, -1⟩ 800 600 ⟨300, 400⟩ = false ∧
    (pointMarkerStep (fun _ => ⟨300, 400⟩) (⟨.bool true, ⟨0, 0, 1⟩, 2, 2, 0, 0⟩ :
      PointMarkerData ℤ) ⟨0, 0, -1⟩ 800 600).position2D = none :=
  ⟨by decide,
    (pointMarker_behind_camera (fun _ => ⟨300, 400⟩) ⟨.bool true, ⟨0, 0, 1⟩, 2, 2, 0, 0⟩
      ⟨0, 0, -1⟩ 800 600 ⟨300, 400⟩ (by decide)).1,
    (pointMarker_behind_camera (fun _ => ⟨300, 400⟩) ⟨.bool true, ⟨0, 0, 1⟩, 2, 2, 0, 0⟩
      ⟨0, 0, -1⟩ 800 600 ⟨300, 400⟩ (by decide)).2.1⟩

/-- Witness for C10 at a concrete state with a boolean-visible marker. -/
theorem toggleMarker_involution_witness :
    (sampleState.lookupMarker "m" = some 0) ∧
    (toggleVisible (.bool true) = .num 0 ∨ toggleVisible (.bool true) = .num 1) ∧
    (toggleVisible (toggleVisible (.bool true))).truthy = (JSVisible.bool true).truthy :=
  ⟨rfl,
    (toggleMarker_involution sampleState "m" 0 ⟨"m", .bool true, true⟩ rfl rfl
      (Or.inl rfl)).2.1,
    (toggleMarker_involution sampleState "m" 0 ⟨"m", .bool true, true⟩ rfl rfl
      (Or.inl rfl)).2.2.2⟩
/-! ## The spherical triangle inequality -/

theorem dot_sq_le (u v : Vec3 ℝ) : dot u v ^ 2 ≤ dot u u * dot v v := by
  simp only [dot]
  nlinarith [sq_nonneg (u.x * v.y - u.y * v.x), sq_nonneg (u.x * v.z - u.z * v.x),
    sq_nonneg (u.y * v.z - u.z * v.y)]

theorem dot_comm (u v : Vec3 ℝ) : dot u v = dot v u := by
  simp only [dot]
  ring

theorem dot_unitVec_self (p : ℝ × ℝ) : dot (unitVec p) (unitVec p) = 1 := by
  simp only [dot, unitVec]
  nlinarith [Real.sin_sq_add_cos_sq p.1, Real.sin_sq_add_cos_sq p.2]

theorem dot_unitVec (p q : ℝ × ℝ) :
    dot (unitVec p) (unitVec q) =
      Real.sin p.1 * Real.sin q.1 + Real.cos p.1 * Real.cos q.1 * Real.cos (p.2 - q.2) := by
  simp only [dot, unitVec, Real.cos_sub]
  ring

/-- The law-of-cosines arc distance is the angle between the two unit
vectors. -/
theorem arcDist_eq_arccos_dot (p q : ℝ × ℝ) :
    arcDist p q = Real.arccos (dot (unitVec p) (unitVec q)) := by
  rw [arcDist, dot_unitVec, Real.cos_abs]

theorem abs_dot_le_one {u v : Vec3 ℝ} (hu : dot u u = 1) (hv : dot v v = 1) :
    |dot u v| ≤ 1 := by
  have h := dot_sq_le u v
  rw [hu, hv] at h
  exact (sq_le_one_iff_abs_le_one (dot u v)).mp (by linarith)

/-- Key estimate: for unit vectors, the inner product of the outer pair is
at least `cos` of the sum of the two angles at the middle vector. -/
theorem dot_lower_bound (u v w : Vec3 ℝ) (hu : dot u u = 1) (hv : dot v v = 1)
    (hw : dot w w = 1) :
    dot u v * dot v w - Real.sqrt (1 - dot u v ^ 2) * Real.sqrt (1 - dot v w ^ 2) ≤
      dot u w := by
  have hcs1 := dot_sq_le u v
  have hcs2 := dot_sq_le v w
  rw [hu, hv] at hcs1
  rw [hv, hw] at hcs2
  have hA : (0:ℝ) ≤ 1 - dot u v ^ 2 := by linarith
  have hB : (0:ℝ) ≤ 1 - dot v w ^ 2 := by linarith
  have hu' : u.x * u.x + u.y * u.y + u.z * u.z = 1 := hu
  have hv' : v.x * v.x + v.y * v.y + v.z * v.z = 1 := hv
  have hw' : w.x * w.x + w.y * w.y + w.z * w.z = 1 := hw
  set p : Vec3 ℝ := ⟨u.x - dot u v * v.x, u.y - dot u v * v.y, u.z - dot u v * v.z⟩ with hp
  set q : Vec3 ℝ := ⟨w.x - dot v w * v.x, w.y - dot v w * v.y, w.z - dot v w * v.z⟩ with hq
  have e1 : dot p q = dot u w - dot u v * dot v w := by
    rw [hp, hq]
    simp only [dot]
    linear_combination ((u.x * v.x + u.y * v.y + u.z * v.z) *
      (v.x * w.x + v.y * w.y + v.z * w.z)) * hv'
  have e2 : dot p p = 1 - dot u v ^ 2 := by
    rw [hp]
    simp only [dot]
    linear_combination hu' + ((u.x * v.x + u.y * v.y + u.z * v.z) ^ 2) * hv'
  have e3 : dot q q = 1 - dot v w ^ 2 := by
    rw [hq]
    simp only [dot]
    linear_combination hw' + ((v.x * w.x + v.y * w.y + v.z * w.z) ^ 2) * hv'
  have h4 : dot p q ^ 2 ≤ (1 - dot u v ^ 2) * (1 - dot v w ^ 2) := by
    have h := dot_sq_le p q
    rw [e2, e3] at h
    exact h
  have h5 : |dot p q| ≤ Real.sqrt (1 - dot u v ^ 2) * Real.sqrt (1 - dot v w ^ 2) := by
    rw [← Real.sqrt_mul hA, ← Real.sqrt_sq_eq_abs]
    exact Real.sqrt_le_sqrt h4
  have h6 := neg_abs_le (dot p q)
  linarith

theorem arccos_antitone : Antitone Real.arccos := by
  intro x y h
  rw [Real.arccos_eq_pi_div_two_sub_arcsin, Real.arccos_eq_pi_div_two_sub_arcsin]
  exact sub_le_sub_left (Real.monotone_arcsin h) _

/-- Triangle inequality for the angle between unit vectors. -/
theorem arccos_dot_triangle (u v w : Vec3 ℝ) (hu : dot u u = 1) (hv : dot v v = 1)
    (hw : dot w w = 1) :
    Real.arccos (dot u w) ≤ Real.arccos (dot u v) + Real.arccos (dot v w) := by
  have ha1 := abs_le.mp (abs_dot_le_one hu hv)
  have hb1 := abs_le.mp (abs_dot_le_one hv hw)
  by_cases hpi : Real.pi ≤ Real.arccos (dot u v) + Real.arccos (dot v w)
  · exact (Real.arccos_le_pi _).trans hpi
  · push_neg at hpi
    have h0 : 0 ≤ Real.arccos (dot u v) + Real.arccos (dot v w) :=
      add_nonneg (Real.arccos_nonneg _) (Real.arccos_nonneg _)
    have hcos : Real.cos (Real.arccos (dot u v) + Real.arccos (dot v w)) =
        dot u v * dot v w - Real.sqrt (1 - dot u v ^ 2) * Real.sqrt (1 - dot v w ^ 2) := by
      rw [Real.cos_add, Real.cos_arccos ha1.1 ha1.2, Real.cos_arccos hb1.1 hb1.2,
        Real.sin_arccos, Real.sin_arccos]
    have hle : Real.cos (Real.arccos (dot u v) + Real.arccos (dot v w)) ≤ dot u w := by
      rw [hcos]
      exact dot_lower_bound u v w hu hv hw
    calc Real.arccos (dot u w)
        ≤ Real.arccos (Real.cos (Real.arccos (dot u v) + Real.arccos (dot v w))) :=
          arccos_antitone hle
      _ = _ := Real.arccos_cos h0 hpi.le

/-- Triangle inequality for the law-of-cosines arc distance: it holds for
arbitrary spherical coordinate pairs. -/
theorem arcDist_triangle (p q r : ℝ × ℝ) : arcDist p q ≤ arcDist r p + arcDist r q := by
  rw [arcDist_eq_arccos_dot, arcDist_eq_arccos_dot, arcDist_eq_arccos_dot,
    dot_comm (unitVec r) (unitVec p)]
  exact arccos_dot_triangle (unitVec p) (unitVec r) (unitVec q)
    (dot_unitVec_self p) (dot_unitVec_self r) (dot_unitVec_self q)

/-- The segment test of the source is vacuous: its left-hand side is never
positive, hence always below the `1e-15` tolerance. -/
theorem arcDist_test_vacuous (p q r : ℝ × ℝ) :
    arcDist p q - arcDist r p - arcDist r q < 1e-15 := by
  have h := arcDist_triangle p q r
  have h15 : (0:ℝ) < 1e-15 := by norm_num
  linarith

/-! ## Claim theorem: arc intersection -/

/-- C2 (code divergence): because `P1_P2 - S1_P1 - S1_P2 < 1e-15` holds for
every input (the law-of-cosines distance obeys the triangle inequality, so
the left side is never positive), `_computeArcIntersection2` always accepts
the first candidate `S1` and always passes the boundary-arc test too: it
returns `S1` unconditionally and never returns null.  A candidate is
therefore returned even when it lies on neither segment, and an invisible
vertex queued for intersection is never dropped. -/
theorem computeArcIntersection2_never_null (toSph : Vec3 ℝ → ℝ × ℝ)
    (P1 P2 P3 P4 : Vec3 ℝ) :
    computeArcIntersection2 toSph P1 P2 P3 P4 =
      some (normalize (cross (normalize (cross P1 P2)) (normalize (cross P3 P4)))) := by
  simp only [computeArcIntersection2]
  rw [if_pos (arcDist_test_vacuous _ _ _), if_pos (arcDist_test_vacuous _ _ _)]

end PSVHUD